import Mathlib

/-!
Verification of the request-handling and response-sanitization pipeline of
`financial_engine_py/src/server.py`: the payload normalizer, the recursive
NaN/Infinity sanitizer `clean_nan`, the scanner `has_nan`, the fallback
`deep_clean`, and the error-responder control flow of the `calculate` handler.

Python JSON-like values (the trees returned by `model_dump` and received as
request payloads) are modelled by the mutual inductive family `JVal` /
`JList` / `JDict`: nested mappings with string keys, sequences, and scalars.
Python floats are modelled by `Flt`: a finite float carries its rational
value; NaN and the two infinities are explicit constructors.  A Python
object of a type the pipeline does not recognise (not dict/list/float/
int/str/bool/None) is modelled by `JVal.vother s`, where `s` is the string
representation `str(obj)` would produce.
-/

/-- A Python float: either finite (carrying its value) or one of the three
non-finite values NaN, +Infinity, -Infinity. -/
inductive Flt where
  | finite (q : ℚ)
  | nan
  | inf
  | ninf
deriving DecidableEq

/-- `math.isnan`. -/
def Flt.isnan : Flt → Bool
  | .nan => true
  | _ => false

/-- `math.isinf` (true for both +Infinity and -Infinity). -/
def Flt.isinf : Flt → Bool
  | .inf => true
  | .ninf => true
  | _ => false

/-- A float is finite when it is neither NaN nor an infinity. -/
def Flt.isFinite (f : Flt) : Bool :=
  !(f.isnan || f.isinf)

mutual
/-- A Python JSON-like value: None, bool, int, float, str, list, dict with
string keys, or an object of an unrecognised type (modelled by the string
`str(obj)` would yield). -/
inductive JVal where
  | vnull
  | vbool (b : Bool)
  | vint (n : Int)
  | vfloat (f : Flt)
  | vstr (s : String)
  | vlist (xs : JList)
  | vdict (m : JDict)
  | vother (s : String)

/-- A Python list of JSON-like values. -/
inductive JList where
  | nil
  | cons (hd : JVal) (tl : JList)

/-- A Python dict from string keys to JSON-like values, in insertion order. -/
inductive JDict where
  | nil
  | cons (key : String) (val : JVal) (tl : JDict)
end

deriving instance DecidableEq for JVal, JList, JDict

mutual
/-- `clean_nan` (server.py lines 94-103): recursively rebuild the tree,
mapping over dict values and list items, replacing a float that is NaN or
infinite by None, and returning every other object unchanged. -/
def clean_nan : JVal → JVal
  | .vdict m => .vdict (clean_nan_dict m)
  | .vlist l => .vlist (clean_nan_list l)
  | .vfloat f => if f.isnan || f.isinf then .vnull else .vfloat f
  | v => v

/-- The list comprehension `[clean_nan(item) for item in obj]`. -/
def clean_nan_list : JList → JList
  | .nil => .nil
  | .cons x xs => .cons (clean_nan x) (clean_nan_list xs)

/-- The dict comprehension `\x7bk: clean_nan(v) for k, v in obj.items()\x7d`. -/
def clean_nan_dict : JDict → JDict
  | .nil => .nil
  | .cons k v rest => .cons k (clean_nan v) (clean_nan_dict rest)
end

mutual
/-- `has_nan` (server.py lines 106-113): true when a NaN or infinite float
occurs anywhere in the tree. -/
def has_nan : JVal → Bool
  | .vfloat f => f.isnan || f.isinf
  | .vdict m => has_nan_dict m
  | .vlist l => has_nan_list l
  | _ => false

/-- `any(has_nan(item) for item in obj)`. -/
def has_nan_list : JList → Bool
  | .nil => false
  | .cons x xs => has_nan x || has_nan_list xs

/-- `any(has_nan(v) for v in obj.values())`. -/
def has_nan_dict : JDict → Bool
  | .nil => false
  | .cons _ v rest => has_nan v || has_nan_dict rest
end

/-- Python `obj is None` for a JSON-like value. -/
def is_none : JVal → Bool
  | .vnull => true
  | _ => false

mutual
/-- `deep_clean` (server.py lines 138-154): recursively rebuild the tree,
dropping dict and list entries whose (pre-clean) value is None, keeping
int/str/bool scalars, replacing non-finite floats by None, keeping None
itself, and converting any unrecognised object to its string
representation. -/
def deep_clean : JVal → JVal
  | .vdict m => .vdict (deep_clean_dict m)
  | .vlist l => .vlist (deep_clean_list l)
  | .vint n => .vint n
  | .vstr s => .vstr s
  | .vbool b => .vbool b
  | .vfloat f => if f.isnan || f.isinf then .vnull else .vfloat f
  | .vnull => .vnull
  | .vother s => .vstr s

/-- `[deep_clean(item) for item in obj if item is not None]`: the filter
tests the item before it is cleaned. -/
def deep_clean_list : JList → JList
  | .nil => .nil
  | .cons x xs =>
      if is_none x then deep_clean_list xs
      else .cons (deep_clean x) (deep_clean_list xs)

/-- `\x7bk: deep_clean(v) for k, v in obj.items() if v is not None\x7d`: the
filter tests the value before it is cleaned. -/
def deep_clean_dict : JDict → JDict
  | .nil => .nil
  | .cons k v rest =>
      if is_none v then deep_clean_dict rest
      else .cons k (deep_clean v) (deep_clean_dict rest)
end

/-- Python `obj == "undefined"` for a JSON-like value: true exactly when the
value is the string literal `undefined`. -/
def eq_undefined_str : JVal → Bool
  | .vstr s => s == "undefined"
  | _ => false

/-- The payload normalizer (server.py line 80):
`\x7bk: v for k, v in payload.items() if v is not None and v != "undefined"\x7d`. -/
def normalize_payload : JDict → JDict
  | .nil => .nil
  | .cons k v rest =>
      if is_none v || eq_undefined_str v then normalize_payload rest
      else .cons k v (normalize_payload rest)

/-- Dict membership: the dict has an entry with exactly this key and this
value. -/
def JDict.hasEntry : JDict → String → JVal → Bool
  | .nil, _, _ => false
  | .cons k v rest, k0, v0 => (k == k0 && v == v0) || rest.hasEntry k0 v0

/-- List membership for JSON-like lists. -/
def JList.memB : JList → JVal → Bool
  | .nil, _ => false
  | .cons x xs, v => x == v || xs.memB v

/-- Lookup of a key in a dict (first match). -/
def JDict.get : JDict → String → Option JVal
  | .nil, _ => none
  | .cons k v rest, k0 => if k == k0 then some v else rest.get k0

/-- A mapping or sequence value (Python dict or list). -/
def is_container : JVal → Bool
  | .vdict _ => true
  | .vlist _ => true
  | _ => false

/-- A finite scalar: null, boolean, integer, string, or finite float. -/
def isFiniteScalar : JVal → Bool
  | .vnull => true
  | .vbool _ => true
  | .vint _ => true
  | .vstr _ => true
  | .vfloat f => f.isFinite
  | _ => false

mutual
/-- Modelled from the spec: `is_json_encodable` — the JSON encodability
predicate of spec section 3 and section 8 (the encoder itself is the
external `json` library, not part of this repository).  A tree is
JSON-encodable when it contains no non-finite floating-point value and no
value of an unrecognised type at any depth. -/
def json_encodable : JVal → Bool
  | .vfloat f => f.isFinite
  | .vother _ => false
  | .vdict m => json_encodable_dict m
  | .vlist l => json_encodable_list l
  | _ => true

/-- All items of the list are JSON-encodable. -/
def json_encodable_list : JList → Bool
  | .nil => true
  | .cons x xs => json_encodable x && json_encodable_list xs

/-- All values of the dict are JSON-encodable. -/
def json_encodable_dict : JDict → Bool
  | .nil => true
  | .cons _ v rest => json_encodable v && json_encodable_dict rest
end

mutual
/-- Modelled from the spec: success of the encodability check
`json.dumps(cleaned)` (server.py line 132; the encoder is the external
`json` library).  Per spec section 4.4 step 4 it fails exactly when an
unrecognised scalar type slipped through; non-finite floats do not make the
default encoder raise. -/
def dumps_ok : JVal → Bool
  | .vother _ => false
  | .vdict m => dumps_ok_dict m
  | .vlist l => dumps_ok_list l
  | _ => true

/-- All items of the list are acceptable to the JSON encoder. -/
def dumps_ok_list : JList → Bool
  | .nil => true
  | .cons x xs => dumps_ok x && dumps_ok_list xs

/-- All values of the dict are acceptable to the JSON encoder. -/
def dumps_ok_dict : JDict → Bool
  | .nil => true
  | .cons _ v rest => dumps_ok v && dumps_ok_dict rest
end

mutual
/-- The primary sanitize pass as the spec words it (section 4.4 step 2):
for a mapping, sanitize each value, keys untouched; for a sequence,
sanitize each element, order preserved; for a floating-point scalar that is
NaN or an infinity, replace it with the no-value marker, otherwise keep it
unchanged; every other value passes through unchanged. -/
def sanitize_spec : JVal → JVal
  | .vdict m => .vdict (sanitize_spec_dict m)
  | .vlist l => .vlist (sanitize_spec_list l)
  | .vfloat f => if f.isnan || f.isinf then .vnull else .vfloat f
  | .vnull => .vnull
  | .vbool b => .vbool b
  | .vint n => .vint n
  | .vstr s => .vstr s
  | .vother s => .vother s

/-- Sanitize each element of a sequence, order preserved. -/
def sanitize_spec_list : JList → JList
  | .nil => .nil
  | .cons x xs => .cons (sanitize_spec x) (sanitize_spec_list xs)

/-- Sanitize each value of a mapping, keys untouched. -/
def sanitize_spec_dict : JDict → JDict
  | .nil => .nil
  | .cons k v rest => .cons k (sanitize_spec v) (sanitize_spec_dict rest)
end

mutual
/-- The deep-clean fallback as the spec words it (section 4.4 step 4):
recursively rebuild the tree, dropping mapping and sequence entries whose
value is null, keeping integer/string/boolean/finite-float scalars
unchanged, replacing any non-finite float with the no-value marker, and
coercing any unrecognised type to its string representation. -/
def deep_clean_spec : JVal → JVal
  | .vdict m => .vdict (deep_clean_spec_dict m)
  | .vlist l => .vlist (deep_clean_spec_list l)
  | .vint n => .vint n
  | .vstr s => .vstr s
  | .vbool b => .vbool b
  | .vfloat f => if f.isFinite then .vfloat f else .vnull
  | .vnull => .vnull
  | .vother s => .vstr s

/-- Rebuild a sequence, dropping null entries. -/
def deep_clean_spec_list : JList → JList
  | .nil => .nil
  | .cons x xs =>
      if x = .vnull then deep_clean_spec_list xs
      else .cons (deep_clean_spec x) (deep_clean_spec_list xs)

/-- Rebuild a mapping, dropping entries whose value is null. -/
def deep_clean_spec_dict : JDict → JDict
  | .nil => .nil
  | .cons k v rest =>
      if v = .vnull then deep_clean_spec_dict rest
      else .cons k (deep_clean_spec v) (deep_clean_spec_dict rest)
end

mutual
/-- `clean_nan` as fallible code: each step of the traversal is sequenced
in the exception monad; no branch of the source raises, so no branch here
returns an error. -/
def clean_nanE : JVal → Except String JVal
  | .vdict m => do
      let cleaned ← clean_nan_dictE m
      pure (.vdict cleaned)
  | .vlist l => do
      let cleaned ← clean_nan_listE l
      pure (.vlist cleaned)
  | .vfloat f => if f.isnan || f.isinf then pure .vnull else pure (.vfloat f)
  | v => pure v

/-- The list comprehension of `clean_nan`, sequenced in the exception
monad. -/
def clean_nan_listE : JList → Except String JList
  | .nil => pure .nil
  | .cons x xs => do
      let hd ← clean_nanE x
      let tl ← clean_nan_listE xs
      pure (.cons hd tl)

/-- The dict comprehension of `clean_nan`, sequenced in the exception
monad. -/
def clean_nan_dictE : JDict → Except String JDict
  | .nil => pure .nil
  | .cons k v rest => do
      let hd ← clean_nanE v
      let tl ← clean_nan_dictE rest
      pure (.cons k hd tl)
end

mutual
/-- `deep_clean` as fallible code: each step sequenced in the exception
monad; no branch of the source raises (the final catch-all converts any
unrecognised object with `str`), so no branch here returns an error. -/
def deep_cleanE : JVal → Except String JVal
  | .vdict m => do
      let cleaned ← deep_clean_dictE m
      pure (.vdict cleaned)
  | .vlist l => do
      let cleaned ← deep_clean_listE l
      pure (.vlist cleaned)
  | .vint n => pure (.vint n)
  | .vstr s => pure (.vstr s)
  | .vbool b => pure (.vbool b)
  | .vfloat f => if f.isnan || f.isinf then pure .vnull else pure (.vfloat f)
  | .vnull => pure .vnull
  | .vother s => pure (.vstr s)

/-- The list comprehension of `deep_clean`, sequenced in the exception
monad. -/
def deep_clean_listE : JList → Except String JList
  | .nil => pure .nil
  | .cons x xs =>
      if is_none x then deep_clean_listE xs
      else do
        let hd ← deep_cleanE x
        let tl ← deep_clean_listE xs
        pure (.cons hd tl)

/-- The dict comprehension of `deep_clean`, sequenced in the exception
monad. -/
def deep_clean_dictE : JDict → Except String JDict
  | .nil => pure .nil
  | .cons k v rest =>
      if is_none v then deep_clean_dictE rest
      else do
        let hd ← deep_cleanE v
        let tl ← deep_clean_dictE rest
        pure (.cons k hd tl)
end

/-- An HTTP response: status code, JSON body, and the headers set
explicitly by the handler (the CORS middleware is outside this model). -/
structure Response where
  status : Nat
  body : JVal
  headers : List (String × String)
deriving DecidableEq

/-- A Python exception raised on the calculate path: either a pydantic
`ValidationError` (message text plus the structured `e.errors()` list) or
any other exception (message text plus formatted traceback). -/
inductive PyExc where
  | validation (message : String) (details : JList)
  | other (message : String) (tb : String)
deriving DecidableEq

/-- Modelled from the spec: the external collaborators of the calculate
handler — pydantic input construction `FinancialInputs(**clean_payload)`
(spec section 4.2), `FinancialEngine.calculate` (section 4.3), and
`model_dump` in json mode and in default mode (section 4.4 step 1) — whose
implementations live outside this repository.  Each may raise. -/
structure Externals (α β : Type) where
  validate : JDict → Except PyExc α
  engine_calc : α → Except PyExc β
  model_dump_json : β → Except PyExc JVal
  model_dump_default : β → Except PyExc JVal

/-- The explicit cross-origin-allow header attached by the error
responders. -/
def cors_header : String × String := ("Access-Control-Allow-Origin", "*")

/-- The two except-clauses of the calculate handler (server.py lines
158-176): a ValidationError becomes a 422 response, any other exception a
500 response, both with the CORS header set explicitly. -/
def error_response : PyExc → Response
  | .validation msg details =>
      Response.mk 422
        (.vdict (.cons "error" (.vstr "ValidationError")
          (.cons "message" (.vstr msg)
            (.cons "details" (.vlist details) .nil))))
        [cors_header]
  | .other msg tb =>
      Response.mk 500
        (.vdict (.cons "error" (.vstr "InternalError")
          (.cons "message" (.vstr msg)
            (.cons "traceback" (.vstr tb) .nil))))
        [cors_header]

/-- Serialization step (server.py lines 116-120): try
`model_dump(mode='json')`; on any exception fall back to the default
`model_dump()`, whose own failure propagates. -/
def dump_step (ext : Externals α β) (result : β) : Except PyExc JVal :=
  match ext.model_dump_json result with
  | .ok d => .ok d
  | .error _ => ext.model_dump_default result

/-- The sanitization part of the handler (server.py lines 122-154): clean,
re-clean if a non-finite float is still detected, then deep-clean if the
JSON encodability check fails. -/
def sanitize_pipeline (dumped : JVal) : JVal :=
  let cleaned := clean_nan dumped
  let cleaned2 := if has_nan cleaned then clean_nan cleaned else cleaned
  if dumps_ok cleaned2 then cleaned2 else deep_clean cleaned2

/-- The POST /calculate handler (server.py lines 74-176): normalize the
payload, validate, invoke the engine, serialize and sanitize; a
ValidationError yields the 422 response, any other exception the 500
response.  The second component records whether the engine was invoked. -/
def calculate (ext : Externals α β) (payload : JDict) : Response × Bool :=
  match ext.validate (normalize_payload payload) with
  | .error e => (error_response e, false)
  | .ok inputs =>
    match ext.engine_calc inputs with
    | .error e => (error_response e, true)
    | .ok result =>
      match dump_step ext result with
      | .error e => (error_response e, true)
      | .ok dumped => (Response.mk 200 (sanitize_pipeline dumped) [], true)

/-- The global exception handler (server.py lines 49-58): any exception
escaping the routed handlers yields a 500 response whose body carries the
exception type name, with the CORS header set explicitly. -/
def global_exception_handler (message ty : String) : Response :=
  Response.mk 500
    (.vdict (.cons "error" (.vstr "InternalError")
      (.cons "message" (.vstr message)
        (.cons "type" (.vstr ty) .nil))))
    [cors_header]

mutual
/-- After `clean_nan`, no non-finite float remains in a value. -/
theorem has_nan_clean_nan : (t : JVal) → has_nan (clean_nan t) = false
  | .vnull => rfl
  | .vbool _ => rfl
  | .vint _ => rfl
  | .vstr _ => rfl
  | .vother _ => rfl
  | .vfloat f => by
      simp only [clean_nan]
      cases h : (f.isnan || f.isinf) <;> simp [has_nan, h]
  | .vlist l => by
      simp only [clean_nan, has_nan]
      exact has_nan_clean_nan_list l
  | .vdict m => by
      simp only [clean_nan, has_nan]
      exact has_nan_clean_nan_dict m

/-- After `clean_nan`, no non-finite float remains in a list. -/
theorem has_nan_clean_nan_list : (l : JList) → has_nan_list (clean_nan_list l) = false
  | .nil => rfl
  | .cons x xs => by
      simp only [clean_nan_list, has_nan_list]
      rw [has_nan_clean_nan x, has_nan_clean_nan_list xs]
      rfl

/-- After `clean_nan`, no non-finite float remains in a dict. -/
theorem has_nan_clean_nan_dict : (m : JDict) → has_nan_dict (clean_nan_dict m) = false
  | .nil => rfl
  | .cons _ v rest => by
      simp only [clean_nan_dict, has_nan_dict]
      rw [has_nan_clean_nan v, has_nan_clean_nan_dict rest]
      rfl
end

mutual
/-- `clean_nan` is idempotent on values. -/
theorem clean_nan_idem : (t : JVal) → clean_nan (clean_nan t) = clean_nan t
  | .vnull => rfl
  | .vbool _ => rfl
  | .vint _ => rfl
  | .vstr _ => rfl
  | .vother _ => rfl
  | .vfloat f => by
      simp only [clean_nan]
      cases h : (f.isnan || f.isinf) <;> simp [clean_nan, h]
  | .vlist l => by
      simp only [clean_nan]
      rw [clean_nan_idem_list l]
  | .vdict m => by
      simp only [clean_nan]
      rw [clean_nan_idem_dict m]

/-- `clean_nan` is idempotent on lists. -/
theorem clean_nan_idem_list : (l : JList) → clean_nan_list (clean_nan_list l) = clean_nan_list l
  | .nil => rfl
  | .cons x xs => by
      simp only [clean_nan_list]
      rw [clean_nan_idem x, clean_nan_idem_list xs]

/-- `clean_nan` is idempotent on dicts. -/
theorem clean_nan_idem_dict : (m : JDict) → clean_nan_dict (clean_nan_dict m) = clean_nan_dict m
  | .nil => rfl
  | .cons k v rest => by
      simp only [clean_nan_dict]
      rw [clean_nan_idem v, clean_nan_idem_dict rest]
end

mutual
/-- `clean_nan` computes the sanitize pass exactly as the spec words it. -/
theorem clean_nan_eq_spec : (t : JVal) → clean_nan t = sanitize_spec t
  | .vnull => rfl
  | .vbool _ => rfl
  | .vint _ => rfl
  | .vstr _ => rfl
  | .vother _ => rfl
  | .vfloat _ => rfl
  | .vlist l => by
      simp only [clean_nan, sanitize_spec]
      rw [clean_nan_eq_spec_list l]
  | .vdict m => by
      simp only [clean_nan, sanitize_spec]
      rw [clean_nan_eq_spec_dict m]

/-- List part of `clean_nan_eq_spec`. -/
theorem clean_nan_eq_spec_list : (l : JList) → clean_nan_list l = sanitize_spec_list l
  | .nil => rfl
  | .cons x xs => by
      simp only [clean_nan_list, sanitize_spec_list]
      rw [clean_nan_eq_spec x, clean_nan_eq_spec_list xs]

/-- Dict part of `clean_nan_eq_spec`. -/
theorem clean_nan_eq_spec_dict : (m : JDict) → clean_nan_dict m = sanitize_spec_dict m
  | .nil => rfl
  | .cons k v rest => by
      simp only [clean_nan_dict, sanitize_spec_dict]
      rw [clean_nan_eq_spec v, clean_nan_eq_spec_dict rest]
end

/-- `clean_nan` leaves every finite scalar unchanged. -/
theorem clean_nan_scalar (v : JVal) (h : isFiniteScalar v = true) :
    clean_nan v = v := by
  cases v <;> simp_all [isFiniteScalar, clean_nan, Flt.isFinite]

mutual
/-- `deep_clean` computes the fallback exactly as the spec words it. -/
theorem deep_clean_eq_spec : (t : JVal) → deep_clean t = deep_clean_spec t
  | .vnull => rfl
  | .vbool _ => rfl
  | .vint _ => rfl
  | .vstr _ => rfl
  | .vother _ => rfl
  | .vfloat f => by cases f <;> rfl
  | .vlist l => by
      simp only [deep_clean, deep_clean_spec]
      rw [deep_clean_eq_spec_list l]
  | .vdict m => by
      simp only [deep_clean, deep_clean_spec]
      rw [deep_clean_eq_spec_dict m]

/-- List part of `deep_clean_eq_spec`. -/
theorem deep_clean_eq_spec_list : (l : JList) → deep_clean_list l = deep_clean_spec_list l
  | .nil => rfl
  | .cons x xs => by
      by_cases h : x = JVal.vnull
      · subst h
        simp only [deep_clean_list, deep_clean_spec_list, is_none, if_pos rfl]
        exact deep_clean_eq_spec_list xs
      · have hn : is_none x = false := by
          cases x <;> simp_all [is_none]
        simp only [deep_clean_list, deep_clean_spec_list, hn, if_neg h,
          Bool.false_eq_true, if_false]
        rw [deep_clean_eq_spec x, deep_clean_eq_spec_list xs]

/-- Dict part of `deep_clean_eq_spec`. -/
theorem deep_clean_eq_spec_dict : (m : JDict) → deep_clean_dict m = deep_clean_spec_dict m
  | .nil => rfl
  | .cons k v rest => by
      by_cases h : v = JVal.vnull
      · subst h
        simp only [deep_clean_dict, deep_clean_spec_dict, is_none, if_pos rfl]
        exact deep_clean_eq_spec_dict rest
      · have hn : is_none v = false := by
          cases v <;> simp_all [is_none]
        simp only [deep_clean_dict, deep_clean_spec_dict, hn, if_neg h,
          Bool.false_eq_true, if_false]
        rw [deep_clean_eq_spec v, deep_clean_eq_spec_dict rest]
end

mutual
/-- The output of `deep_clean` is JSON-encodable on values. -/
theorem json_encodable_deep_clean : (t : JVal) → json_encodable (deep_clean t) = true
  | .vnull => rfl
  | .vbool _ => rfl
  | .vint _ => rfl
  | .vstr _ => rfl
  | .vother _ => rfl
  | .vfloat f => by cases f <;> rfl
  | .vlist l => by
      simp only [deep_clean, json_encodable]
      exact json_encodable_deep_clean_list l
  | .vdict m => by
      simp only [deep_clean, json_encodable]
      exact json_encodable_deep_clean_dict m

/-- The output of `deep_clean` is JSON-encodable on lists. -/
theorem json_encodable_deep_clean_list : (l : JList) → json_encodable_list (deep_clean_list l) = true
  | .nil => rfl
  | .cons x xs => by
      cases h : is_none x
      · simp only [deep_clean_list, h, Bool.false_eq_true, if_false, json_encodable_list]
        rw [json_encodable_deep_clean x, json_encodable_deep_clean_list xs]
        rfl
      · simp only [deep_clean_list, h, if_true]
        exact json_encodable_deep_clean_list xs

/-- The output of `deep_clean` is JSON-encodable on dicts. -/
theorem json_encodable_deep_clean_dict : (m : JDict) → json_encodable_dict (deep_clean_dict m) = true
  | .nil => rfl
  | .cons k v rest => by
      cases h : is_none v
      · simp only [deep_clean_dict, h, Bool.false_eq_true, if_false, json_encodable_dict]
        rw [json_encodable_deep_clean v, json_encodable_deep_clean_dict rest]
        rfl
      · simp only [deep_clean_dict, h, if_true]
        exact json_encodable_deep_clean_dict rest
end

mutual
/-- The fallible embedding of `clean_nan` never reaches an error branch. -/
theorem clean_nanE_ok : (t : JVal) → clean_nanE t = Except.ok (clean_nan t)
  | .vnull => rfl
  | .vbool _ => rfl
  | .vint _ => rfl
  | .vstr _ => rfl
  | .vother _ => rfl
  | .vfloat f => by cases h : (f.isnan || f.isinf) <;> simp [clean_nanE, clean_nan, h] <;> rfl
  | .vlist l => by
      simp only [clean_nanE, clean_nan]
      rw [clean_nan_listE_ok l]
      rfl
  | .vdict m => by
      simp only [clean_nanE, clean_nan]
      rw [clean_nan_dictE_ok m]
      rfl

/-- List part of `clean_nanE_ok`. -/
theorem clean_nan_listE_ok : (l : JList) → clean_nan_listE l = Except.ok (clean_nan_list l)
  | .nil => rfl
  | .cons x xs => by
      simp only [clean_nan_listE, clean_nan_list]
      rw [clean_nanE_ok x]
      show clean_nan_listE xs >>= _ = _
      rw [clean_nan_listE_ok xs]
      rfl

/-- Dict part of `clean_nanE_ok`. -/
theorem clean_nan_dictE_ok : (m : JDict) → clean_nan_dictE m = Except.ok (clean_nan_dict m)
  | .nil => rfl
  | .cons k v rest => by
      simp only [clean_nan_dictE, clean_nan_dict]
      rw [clean_nanE_ok v]
      show clean_nan_dictE rest >>= _ = _
      rw [clean_nan_dictE_ok rest]
      rfl
end

mutual
/-- The fallible embedding of `deep_clean` never reaches an error branch. -/
theorem deep_cleanE_ok : (t : JVal) → deep_cleanE t = Except.ok (deep_clean t)
  | .vnull => rfl
  | .vbool _ => rfl
  | .vint _ => rfl
  | .vstr _ => rfl
  | .vother _ => rfl
  | .vfloat f => by cases h : (f.isnan || f.isinf) <;> simp [deep_cleanE, deep_clean, h] <;> rfl
  | .vlist l => by
      simp only [deep_cleanE, deep_clean]
      rw [deep_clean_listE_ok l]
      rfl
  | .vdict m => by
      simp only [deep_cleanE, deep_clean]
      rw [deep_clean_dictE_ok m]
      rfl

/-- List part of `deep_cleanE_ok`. -/
theorem deep_clean_listE_ok : (l : JList) → deep_clean_listE l = Except.ok (deep_clean_list l)
  | .nil => rfl
  | .cons x xs => by
      cases h : is_none x
      · simp only [deep_clean_listE, deep_clean_list, h, Bool.false_eq_true, if_false]
        rw [deep_cleanE_ok x]
        show deep_clean_listE xs >>= _ = _
        rw [deep_clean_listE_ok xs]
        rfl
      · simp only [deep_clean_listE, deep_clean_list, h, if_true]
        exact deep_clean_listE_ok xs

/-- Dict part of `deep_cleanE_ok`. -/
theorem deep_clean_dictE_ok : (m : JDict) → deep_clean_dictE m = Except.ok (deep_clean_dict m)
  | .nil => rfl
  | .cons k v rest => by
      cases h : is_none v
      · simp only [deep_clean_dictE, deep_clean_dict, h, Bool.false_eq_true, if_false]
        rw [deep_cleanE_ok v]
        show deep_clean_dictE rest >>= _ = _
        rw [deep_clean_dictE_ok rest]
        rfl
      · simp only [deep_clean_dictE, deep_clean_dict, h, if_true]
        exact deep_clean_dictE_ok rest
end

/-- Every entry surviving normalization is neither None nor `"undefined"`. -/
theorem normalize_payload_entry_clean : (p : JDict) → ∀ k v,
    (normalize_payload p).hasEntry k v = true →
    is_none v = false ∧ eq_undefined_str v = false
  | .nil => by
      intro k v h
      simp [normalize_payload, JDict.hasEntry] at h
  | .cons k0 v0 rest => by
      intro k v h
      cases hc : (is_none v0 || eq_undefined_str v0)
      · simp only [normalize_payload, hc, Bool.false_eq_true, if_false] at h
        simp only [JDict.hasEntry, Bool.or_eq_true, Bool.and_eq_true, beq_iff_eq] at h
        rcases h with ⟨_, hv⟩ | h
        · subst hv
          cases hn : is_none v0 <;> cases hu : eq_undefined_str v0 <;> simp_all
        · exact normalize_payload_entry_clean rest k v h
      · simp only [normalize_payload, hc, if_true] at h
        exact normalize_payload_entry_clean rest k v h

/-- Every entry that is neither None nor `"undefined"` survives
normalization unchanged. -/
theorem normalize_payload_keeps : (p : JDict) → ∀ k v,
    p.hasEntry k v = true → is_none v = false → eq_undefined_str v = false →
    (normalize_payload p).hasEntry k v = true
  | .nil => by
      intro k v h _ _
      simp [JDict.hasEntry] at h
  | .cons k0 v0 rest => by
      intro k v h hn hu
      simp only [JDict.hasEntry, Bool.or_eq_true, Bool.and_eq_true, beq_iff_eq] at h
      rcases h with ⟨hk, hv⟩ | h
      · subst hk; subst hv
        simp only [normalize_payload, hn, hu, Bool.or_self, Bool.false_eq_true, if_false]
        simp [JDict.hasEntry]
      · have ih := normalize_payload_keeps rest k v h hn hu
        cases hc : (is_none v0 || eq_undefined_str v0)
        · simp only [normalize_payload, hc, Bool.false_eq_true, if_false]
          simp only [JDict.hasEntry, Bool.or_eq_true]
          exact Or.inr ih
        · simp only [normalize_payload, hc, if_true]
          exact ih

/-- A dict entry whose value is a non-finite float is kept by `deep_clean`
with its value rewritten to None. -/
theorem deep_clean_dict_keeps_null : (m : JDict) → ∀ k f,
    m.hasEntry k (.vfloat f) = true → f.isFinite = false →
    (deep_clean_dict m).hasEntry k .vnull = true
  | .nil => by
      intro k f h _
      simp [JDict.hasEntry] at h
  | .cons k0 v0 rest => by
      intro k f h hf
      simp only [JDict.hasEntry, Bool.or_eq_true, Bool.and_eq_true, beq_iff_eq] at h
      rcases h with ⟨hk, hv⟩ | h
      · subst hk; subst hv
        have hnf : (f.isnan || f.isinf) = true := by
          simp only [Flt.isFinite, Bool.not_eq_eq_eq_not, Bool.not_true] at hf
          simpa using hf
        simp only [deep_clean_dict, is_none, Bool.false_eq_true, if_false]
        simp [JDict.hasEntry, deep_clean, hnf]
      · have ih := deep_clean_dict_keeps_null rest k f h hf
        cases hc : is_none v0
        · simp only [deep_clean_dict, hc, Bool.false_eq_true, if_false]
          simp only [JDict.hasEntry, Bool.or_eq_true]
          exact Or.inr ih
        · simp only [deep_clean_dict, hc, if_true]
          exact ih

/-- Both error responders of the calculate handler attach exactly the CORS
header. -/
theorem error_response_headers : ∀ e, (error_response e).headers = [cors_header] := by
  intro e
  cases e <;> rfl

/-- `is_none` holds exactly on the None value. -/
theorem is_none_eq (v : JVal) : is_none v = true ↔ v = JVal.vnull := by
  cases v <;> simp [is_none]

/-- `eq_undefined_str` holds exactly on the string `"undefined"`. -/
theorem eq_undefined_str_eq (v : JVal) :
    eq_undefined_str v = true ↔ v = JVal.vstr "undefined" := by
  cases v <;> simp [eq_undefined_str]

/-- Field lookup in a response body when the body is a mapping. -/
def body_field (r : Response) (k : String) : Option JVal :=
  match r.body with
  | .vdict m => m.get k
  | _ => none

/-- C1: for every result tree, the sanitizer's output is JSON-encodable:
`has_nan (clean_nan t)` is false for every tree `t`, at arbitrary nesting
depth inside mappings and sequences. -/
theorem C1_sanitizer_output_encodable : ∀ t : JVal, has_nan (clean_nan t) = false :=
  has_nan_clean_nan

/-- C2: `clean_nan` computes exactly the primary sanitize pass as the spec
words it (mapping values sanitized with keys untouched, sequence elements
sanitized in order, non-finite floats replaced by null, all other scalars
unchanged), and it leaves every finite scalar value unchanged. -/
theorem C2_clean_nan_exact :
    (∀ t : JVal, clean_nan t = sanitize_spec t) ∧
    (∀ v : JVal, isFiniteScalar v = true → clean_nan v = v) :=
  ⟨clean_nan_eq_spec, clean_nan_scalar⟩

/-- C2 witness: the theorem applied to the concrete finite scalar `7`. -/
theorem C2_clean_nan_exact_witness : clean_nan (JVal.vint 7) = JVal.vint 7 :=
  C2_clean_nan_exact.2 (JVal.vint 7) rfl

/-- C3: the sanitizer is idempotent: `clean_nan` applied to its own output
yields the same tree. -/
theorem C3_sanitizer_idempotent : ∀ t : JVal, clean_nan (clean_nan t) = clean_nan t :=
  clean_nan_idem

/-- C4: the sanitizer never raises: the fallible embeddings of both
`clean_nan` and `deep_clean` return a value on every tree and never reach
an error branch. -/
theorem C4_sanitizer_total : ∀ t : JVal,
    clean_nanE t = Except.ok (clean_nan t) ∧
    deep_cleanE t = Except.ok (deep_clean t) :=
  fun t => ⟨clean_nanE_ok t, deep_cleanE_ok t⟩

/-- C5: `deep_clean` computes exactly the deep-clean fallback as the spec
words it (dropping mapping and sequence entries whose value is null,
keeping int/str/bool/finite-float scalars, replacing non-finite floats by
null, and coercing unrecognised values to their string representation),
and its output is always JSON-encodable. -/
theorem C5_deep_clean_exact :
    (∀ t : JVal, deep_clean t = deep_clean_spec t) ∧
    (∀ t : JVal, json_encodable (deep_clean t) = true) :=
  ⟨deep_clean_eq_spec, json_encodable_deep_clean⟩

/-- C6: the normalized payload contains no key mapped to None or to the
string `"undefined"`, and every other key-value pair of the payload is
preserved unchanged. -/
theorem C6_normalize_payload_clean (p : JDict) (k : String) (v : JVal) :
    ((normalize_payload p).hasEntry k v = true →
      is_none v = false ∧ eq_undefined_str v = false) ∧
    (p.hasEntry k v = true → is_none v = false → eq_undefined_str v = false →
      (normalize_payload p).hasEntry k v = true) :=
  ⟨normalize_payload_entry_clean p k v, normalize_payload_keeps p k v⟩

/-- A concrete payload with a real field and a null field. -/
def payload_c6 : JDict :=
  .cons "kWp" (.vint 100) (.cons "notes" .vnull .nil)

/-- C6 witness: the theorem applied to the concrete payload, keeping the
entry for `kWp`. -/
theorem C6_normalize_payload_clean_witness :
    (normalize_payload payload_c6).hasEntry "kWp" (JVal.vint 100) = true :=
  (C6_normalize_payload_clean payload_c6 "kWp" (JVal.vint 100)).2
    (by decide) (by decide) (by decide)

/-- C9: the normalizer filters only the top level: an entry whose value is
a mapping or sequence is always preserved unchanged (so any None or
`"undefined"` nested inside it survives), and an entry is removed only
when its direct value is None or `"undefined"`. -/
theorem C9_normalizer_top_level_only (p : JDict) (k : String) (v : JVal) :
    (is_container v = true → p.hasEntry k v = true →
      (normalize_payload p).hasEntry k v = true) ∧
    (p.hasEntry k v = true → (normalize_payload p).hasEntry k v = false →
      v = JVal.vnull ∨ v = JVal.vstr "undefined") := by
  constructor
  · intro hc h
    have hn : is_none v = false := by cases v <;> simp_all [is_container, is_none]
    have hu : eq_undefined_str v = false := by
      cases v <;> simp_all [is_container, eq_undefined_str]
    exact normalize_payload_keeps p k v h hn hu
  · intro h hdrop
    cases hn : is_none v
    · cases hu : eq_undefined_str v
      · have := normalize_payload_keeps p k v h hn hu
        rw [this] at hdrop
        cases hdrop
      · exact Or.inr ((eq_undefined_str_eq v).mp hu)
    · exact Or.inl ((is_none_eq v).mp hn)

/-- A payload whose single entry holds a nested mapping containing a null. -/
def payload_c9 : JDict :=
  .cons "cfg" (.vdict (.cons "x" .vnull .nil)) .nil

/-- C9 witness: the theorem applied to the concrete payload: the nested
mapping containing a null survives normalization unchanged. -/
theorem C9_normalizer_top_level_only_witness :
    (normalize_payload payload_c9).hasEntry "cfg"
      (JVal.vdict (.cons "x" .vnull .nil)) = true :=
  (C9_normalizer_top_level_only payload_c9 "cfg"
    (JVal.vdict (.cons "x" .vnull .nil))).1 (by decide) (by decide)

/-- C10: `deep_clean`'s null filter tests the value before cleaning: a dict
entry holding a non-finite float is kept with value rewritten to None, so
the output can contain nulls; consequently `deep_clean` is not idempotent,
witnessed by a one-entry dict holding NaN. -/
theorem C10_deep_clean_not_idempotent :
    (∀ (m : JDict) (k : String) (f : Flt),
      m.hasEntry k (.vfloat f) = true → f.isFinite = false →
      (deep_clean_dict m).hasEntry k .vnull = true) ∧
    deep_clean (deep_clean (.vdict (.cons "a" (.vfloat .nan) .nil))) ≠
      deep_clean (.vdict (.cons "a" (.vfloat .nan) .nil)) := by
  constructor
  · exact deep_clean_dict_keeps_null
  · decide

/-- A one-entry dict holding NaN. -/
def dict_c10 : JDict := .cons "tir" (.vfloat .nan) .nil

/-- C10 witness: the theorem applied to the concrete dict: the NaN entry is
kept, mapped to None. -/
theorem C10_deep_clean_not_idempotent_witness :
    (deep_clean_dict dict_c10).hasEntry "tir" JVal.vnull = true :=
  C10_deep_clean_not_idempotent.1 dict_c10 "tir" Flt.nan (by decide) (by decide)

/-- C7: when input validation fails, the handler returns 422 with the
ValidationError envelope carrying the validator's per-field details and
the CORS header, and the engine is never invoked. -/
theorem C7_validation_gate (α β : Type) (ext : Externals α β) (payload : JDict)
    (msg : String) (details : JList) (d : JVal)
    (hval : ext.validate (normalize_payload payload) =
      Except.error (.validation msg details))
    (hd : details.memB d = true) :
    (calculate ext payload).1.status = 422 ∧
    (calculate ext payload).1.body =
      .vdict (.cons "error" (.vstr "ValidationError")
        (.cons "message" (.vstr msg)
          (.cons "details" (.vlist details) .nil))) ∧
    (∃ ds : JList,
      body_field (calculate ext payload).1 "details" = some (.vlist ds) ∧
      ds.memB d = true) ∧
    cors_header ∈ (calculate ext payload).1.headers ∧
    (calculate ext payload).2 = false := by
  have hc : calculate ext payload = (error_response (.validation msg details), false) := by
    simp [calculate, hval]
  rw [hc]
  refine ⟨rfl, rfl, ⟨details, ?_, hd⟩, ?_, rfl⟩
  · rfl
  · simp [error_response, cors_header]

/-- The validator failure details used by the C7 witness: one entry whose
location names the missing field kWp. -/
def details_c7 : JList :=
  .cons (.vdict (.cons "loc" (.vlist (.cons (.vstr "kWp") .nil)) .nil)) .nil

/-- External collaborators whose validator always reports a missing kWp. -/
def ext_c7 : Externals Unit Unit :=
  Externals.mk (fun _ => .error (.validation "kWp Field required" details_c7))
    (fun _ => .ok ()) (fun _ => .ok .vnull) (fun _ => .ok .vnull)

/-- C7 witness: the theorem applied to a concrete payload and a concrete
failing validator: the response is 422 and the engine was not invoked. -/
theorem C7_validation_gate_witness :
    (calculate ext_c7 JDict.nil).1.status = 422 ∧
    (calculate ext_c7 JDict.nil).2 = false := by
  have h := C7_validation_gate Unit Unit ext_c7 JDict.nil "kWp Field required"
    details_c7 (.vdict (.cons "loc" (.vlist (.cons (.vstr "kWp") .nil)) .nil))
    rfl (by decide)
  exact ⟨h.1, h.2.2.2.2⟩

/-- C8: any non-validation exception on the calculate path (validation
step, engine, or serialization) yields 500 with the InternalError envelope
carrying the traceback; the global handler yields the InternalError
envelope carrying the exception type name; and every non-200 response of
the handler carries the CORS header. -/
theorem C8_internal_error_responses :
    (∀ (α β : Type) (ext : Externals α β) (payload : JDict) (msg tb : String),
      (ext.validate (normalize_payload payload) = Except.error (.other msg tb) ∨
       (∃ a, ext.validate (normalize_payload payload) = Except.ok a ∧
         ext.engine_calc a = Except.error (.other msg tb)) ∨
       (∃ a b2, ext.validate (normalize_payload payload) = Except.ok a ∧
         ext.engine_calc a = Except.ok b2 ∧
         dump_step ext b2 = Except.error (.other msg tb))) →
      (calculate ext payload).1.status = 500 ∧
      (calculate ext payload).1.body =
        .vdict (.cons "error" (.vstr "InternalError")
          (.cons "message" (.vstr msg)
            (.cons "traceback" (.vstr tb) .nil))) ∧
      cors_header ∈ (calculate ext payload).1.headers) ∧
    (∀ msg ty : String,
      (global_exception_handler msg ty).status = 500 ∧
      (global_exception_handler msg ty).body =
        .vdict (.cons "error" (.vstr "InternalError")
          (.cons "message" (.vstr msg)
            (.cons "type" (.vstr ty) .nil))) ∧
      cors_header ∈ (global_exception_handler msg ty).headers) ∧
    (∀ (α β : Type) (ext : Externals α β) (payload : JDict),
      (calculate ext payload).1.status = 200 ∨
      cors_header ∈ (calculate ext payload).1.headers) := by
  refine ⟨?_, ?_, ?_⟩
  · intro α β ext payload msg tb h
    have hc : calculate ext payload = (error_response (.other msg tb), false) ∨
        calculate ext payload = (error_response (.other msg tb), true) := by
      rcases h with h | ⟨a, ha, h⟩ | ⟨a, b2, ha, hb, h⟩
      · left; simp [calculate, h]
      · right; simp [calculate, ha, h]
      · right; simp [calculate, ha, hb, h]
    rcases hc with hc | hc <;> rw [hc] <;>
      exact ⟨rfl, rfl, by simp [error_response, cors_header]⟩
  · intro msg ty
    exact ⟨rfl, rfl, by simp [global_exception_handler, cors_header]⟩
  · intro α β ext payload
    cases hv : ext.validate (normalize_payload payload) with
    | error e =>
        right
        simp [calculate, hv, error_response_headers e]
    | ok a =>
        cases he : ext.engine_calc a with
        | error e =>
            right
            simp [calculate, hv, he, error_response_headers e]
        | ok b2 =>
            cases hd : dump_step ext b2 with
            | error e =>
                right
                simp [calculate, hv, he, hd, error_response_headers e]
            | ok dumped =>
                left
                simp [calculate, hv, he, hd]

/-- External collaborators whose engine always raises an unexpected
exception. -/
def ext_c8 : Externals Unit Unit :=
  Externals.mk (fun _ => .ok ()) (fun _ => .error (.other "boom" "Traceback"))
    (fun _ => .ok .vnull) (fun _ => .ok .vnull)

/-- C8 witness: the theorem applied to a concrete engine failure: the
response is 500 and carries the CORS header. -/
theorem C8_internal_error_responses_witness :
    (calculate ext_c8 JDict.nil).1.status = 500 ∧
    cors_header ∈ (calculate ext_c8 JDict.nil).1.headers := by
  have h := C8_internal_error_responses.1 Unit Unit ext_c8 JDict.nil
    "boom" "Traceback" (Or.inr (Or.inl ⟨(), rfl, rfl⟩))
  exact ⟨h.1, h.2.2⟩
